import Mathlib

/-!
Shallow embedding of the SlimeE client (src/index.tsx): data model,
query classifier, markdown renderer, code extraction, persistence,
the search controller and the video-retry state machine, together with
theorems checking the claims of the specification against these definitions.
-/

set_option maxRecDepth 4000

namespace SlimeE

/-- Role of a chat message (the `role` field of `Message`: user or model). -/
inductive Role where
  | user
  | model
deriving DecidableEq, Repr

/-- The `{html, css, javascript}` record attached to a model message by
`extractCode` (type `Message.code` in src/index.tsx). -/
structure CodeArtifact where
  html : String
  css : String
  javascript : String
deriving DecidableEq, Repr

/-- A grounding citation chunk (`{web: {uri, title}}` shape consumed from
`groundingMetadata.groundingChunks` and rendered in `createModelMessageBubble`). -/
structure Citation where
  uri : String
  title : Option String
deriving DecidableEq, Repr

/-- The `Message` record of src/index.tsx: optional fields model the
TypeScript optional properties (absent = `none`). -/
structure Message where
  role : Role
  text : String
  image : Option String := none
  video : Option String := none
  sources : Option (List Citation) := none
  code : Option CodeArtifact := none
deriving DecidableEq, Repr

/-- The `Chat` record of src/index.tsx. -/
structure Chat where
  id : Nat
  title : String
  history : List Message
deriving DecidableEq, Repr

/-- The `AppState` record of src/index.tsx. `activeChatId: number | null`
is modelled as `Option Nat`. -/
structure AppState where
  isAuthenticated : Bool
  chats : List Chat
  activeChatId : Option Nat
  nextChatId : Nat
deriving DecidableEq, Repr

/-- The initial value of the module-level `state` variable in src/index.tsx. -/
def initialState : AppState :=
  { isAuthenticated := false, chats := [], activeChatId := none, nextChatId := 1 }

/-! ### String helpers mirroring the JavaScript regex machinery -/

/-- JavaScript regex `\w`: `[A-Za-z0-9_]`. -/
def isWordChar (c : Char) : Bool :=
  (('a' ≤ c && c ≤ 'z') || ('A' ≤ c && c ≤ 'Z') || ('0' ≤ c && c ≤ '9') || c = '_')

/-- Whether the character at index `i` of `s` is a word character
(out of range counts as non-word). -/
def wordAt (s : List Char) (i : Nat) : Bool :=
  isWordChar (s.getD i ' ')

/-- JavaScript regex `\b` at position `i` of `s`: the two sides of the
position disagree on word-character-ness (before the first character the
left side is non-word). -/
def boundaryAt (s : List Char) (i : Nat) : Bool :=
  (if i = 0 then false else wordAt s (i - 1)) != wordAt s i

/-- Whether `pat` occurs in `s` at some position with a `\b` boundary on both ends:
the semantics of testing `/\b(pat)\b/` for a literal alternative `pat`. -/
def matchWordBounded (pats : List String) (s : String) : Bool :=
  (List.range (s.data.length + 1)).any (fun i =>
    pats.any (fun p =>
      p.data.isPrefixOf (s.data.drop i) && boundaryAt s.data i && boundaryAt s.data (i + p.data.length)))

/-- Whether `pat` occurs somewhere in `s` (JavaScript `String.prototype.includes`). -/
def containsSubstr (s pat : String) : Bool :=
  (List.range (s.data.length + 1)).any (fun i => pat.data.isPrefixOf (s.data.drop i))

/-- Character-wise lowercasing (the `i` regex flag is modelled by lowercasing
the subject; the patterns are already lowercase ASCII). -/
def toLowerString (s : String) : String :=
  String.mk (s.data.map Char.toLower)

/-- JavaScript `String.prototype.trim`: strip leading and trailing
whitespace. -/
def trimString (s : String) : String :=
  String.mk (((s.data.dropWhile Char.isWhitespace).reverse.dropWhile Char.isWhitespace).reverse)

/-- JavaScript split at the newline character (keeps empty pieces, as the
filter of blank lines in the source expects). -/
def splitOnNlAux : List Char → List Char → List String
  | [], acc => [String.mk acc.reverse]
  | '\n' :: rest, acc => String.mk acc.reverse :: splitOnNlAux rest []
  | c :: rest, acc => splitOnNlAux rest (c :: acc)

/-- Split a string at newline characters. -/
def splitOnNl (s : String) : List String :=
  splitOnNlAux s.data []

/-! ### Query classifier (the regex dispatch in `handleSearch`, lines 155-168) -/

/-- The four generation modes the dispatch in `handleSearch` selects among. -/
inductive Mode where
  | Image
  | Video
  | Code
  | TextSearch
deriving DecidableEq, Repr

/-- Alternatives of `imageKeywords = /^(draw|create|generate|make an image of|show me a picture of)/i`. -/
def imageKeywordList : List String :=
  ["draw", "create", "generate", "make an image of", "show me a picture of"]

/-- Alternatives of `videoKeywords = /\b(video of|animate|generate a video|create a video)\b/i`. -/
def videoKeywordList : List String :=
  ["video of", "animate", "generate a video", "create a video"]

/-- Alternatives of `codeKeywords = /\b(code|write|html|css|javascript|js|function|snippet|app|component)\b/i`. -/
def codeKeywordList : List String :=
  ["code", "write", "html", "css", "javascript", "js", "function", "snippet", "app", "component"]

/-- Test `imageKeywords.test(query)`: start-anchored, case-insensitive. -/
def imageKeywordsTest (query : String) : Bool :=
  imageKeywordList.any (fun p => p.data.isPrefixOf (toLowerString query).data)

/-- Test `videoKeywords.test(query)`: word-bounded, case-insensitive. -/
def videoKeywordsTest (query : String) : Bool :=
  matchWordBounded videoKeywordList (toLowerString query)

/-- Test `codeKeywords.test(query)`: word-bounded, case-insensitive. -/
def codeKeywordsTest (query : String) : Bool :=
  matchWordBounded codeKeywordList (toLowerString query)

/-- The mode-dispatch of `handleSearch` (the if/else chain at lines 160-168),
as the pure classifier described in spec §4.1. -/
def classify (query : String) : Mode :=
  if imageKeywordsTest query then .Image
  else if videoKeywordsTest query then .Video
  else if codeKeywordsTest query then .Code
  else .TextSearch

/-! ### Fenced-code-block scanning

Both `simpleMarkdownToHtml` (its first `replace`) and `extractCode` run the
global fence regex: three backticks, `(\w*)`, a newline, lazy `([\s\S]*?)`,
three backticks over the input.  A JavaScript global regex scan finds the
leftmost match from each start position: at a candidate start it needs the
three backticks, then a maximal word-character run (no shorter run can be
followed by a newline, since `\w` never matches a newline), then a newline,
then the shortest body followed by three closing backticks; if any part is
missing it advances one character.  `scanSegs` implements exactly that,
producing the interleaving of unmatched text and matched blocks. -/

/-- A segment of a markdown string: plain text, or one fenced block match
with its raw language tag and raw (untrimmed) body. -/
inductive MdSeg where
  | text (s : String)
  | fence (lang code : String)
deriving DecidableEq, Repr

/-- Whether the input begins with three backticks. -/
def startsWithTicks (s : List Char) : Bool :=
  match s with
  | '\x60' :: '\x60' :: '\x60' :: _ => true
  | _ => false

/-- Split off the maximal leading run of `\w` characters. -/
def takeWordChars : List Char → List Char × List Char
  | [] => ([], [])
  | c :: rest =>
    if isWordChar c then
      let (w, r) := takeWordChars rest
      (c :: w, r)
    else ([], c :: rest)

/-- Find the first occurrence of three closing backticks; returns the body
before it and the remainder after it (the lazy `[\s\S]*?` semantics). -/
def findCloseTicks : List Char → Option (List Char × List Char)
  | [] => none
  | c :: rest =>
    if startsWithTicks (c :: rest) then some ([], (c :: rest).drop 3)
    else
      match findCloseTicks rest with
      | some (content, after) => some (c :: content, after)
      | none => none

/-- Prepend one unmatched character onto the segment list. -/
def mergeText (c : Char) : List MdSeg → List MdSeg
  | .text s :: rest => .text (String.mk (c :: s.data)) :: rest
  | segs => .text (String.mk [c]) :: segs

/-- The global fenced-block scan (fuel ≥ input length makes it total). -/
def scanSegs : Nat → List Char → List MdSeg
  | 0, rest => if rest.isEmpty then [] else [.text (String.mk rest)]
  | _ + 1, [] => []
  | fuel + 1, c :: rest =>
    if startsWithTicks (c :: rest) then
      let (langCs, afterLang) := takeWordChars ((c :: rest).drop 3)
      match afterLang with
      | '\n' :: body =>
        match findCloseTicks body with
        | some (content, after) =>
            .fence (String.mk langCs) (String.mk content) :: scanSegs fuel after
        | none => mergeText c (scanSegs fuel rest)
      | _ => mergeText c (scanSegs fuel rest)
    else mergeText c (scanSegs fuel rest)

/-- All fenced-block matches of the scan, as (language, raw body) pairs. -/
def fencedBlocks (markdown : String) : List (String × String) :=
  (scanSegs markdown.data.length markdown.data).filterMap (fun seg =>
    match seg with
    | .fence lang code => some (lang, code)
    | .text _ => none)

/-! ### `extractCode` (src/index.tsx lines 107-120) -/

/-- One iteration of the `while` loop body of `extractCode`, folded over the
accumulator `(extracted, hasCode)`. -/
def extractCodeStep (acc : CodeArtifact × Bool) (b : String × String) : CodeArtifact × Bool :=
  let lang := toLowerString b.1
  let code := trimString b.2
  if lang = "html" then ({ acc.1 with html := acc.1.html ++ code ++ "\n" }, true)
  else if lang = "css" then ({ acc.1 with css := acc.1.css ++ code ++ "\n" }, true)
  else if lang = "javascript" || lang = "js" then
    ({ acc.1 with javascript := acc.1.javascript ++ code ++ "\n" }, true)
  else acc

/-- Function `extractCode(markdown)`: scans every fenced block, sorts its trimmed body
into the html/css/javascript accumulator by language tag, and returns `none`
(JavaScript `null`) when no recognized block was seen. -/
def extractCode (markdown : String) : Option CodeArtifact :=
  let result := (fencedBlocks markdown).foldl extractCodeStep (⟨"", "", ""⟩, false)
  if result.2 then some result.1 else none

/-! ### `simpleMarkdownToHtml` (src/index.tsx lines 72-105) -/

/-- Helper `escapeHtml` (lines 68-70).  The source applies five global replaces in
sequence (`&`, `<`, `>`, `"`, the apostrophe); since the first replace runs
before any entity is introduced and no later replacement produces a character
of an earlier class, the sequence equals this single character-wise map. -/
def escapeHtmlChar (c : Char) : String :=
  if c = '&' then "&amp;"
  else if c = '<' then "&lt;"
  else if c = '>' then "&gt;"
  else if c = '\x22' then "&quot;"
  else if c = '\x27' then "&#039;"
  else String.mk [c]

/-- Definition of `escapeHtml` as a map over the characters of the input. -/
def escapeHtml (input : String) : String :=
  String.join (input.data.map escapeHtmlChar)

/-- The first `replace` of `simpleMarkdownToHtml`: each fenced block becomes
a pre/code element whose body is the trimmed, HTML-escaped block body. -/
def replaceFences (markdown : String) : String :=
  String.join ((scanSegs markdown.data.length markdown.data).map (fun seg =>
    match seg with
    | .text s => s
    | .fence lang code =>
        "<pre><code class=\x22language-" ++ lang ++ "\x22>" ++ escapeHtml (trimString code)
          ++ "</code></pre>"))

/-- Whether the input begins with two asterisks. -/
def startsWithStars : List Char → Bool
  | '*' :: '*' :: _ => true
  | _ => false

/-- For the bold regex: the lazy newline-free body up to the first closing
pair of asterisks, with the remainder after it; `none` when no closing pair
occurs on the same line. -/
def findBoldClose : List Char → Option (List Char × List Char)
  | [] => none
  | c :: rest =>
    if startsWithStars (c :: rest) then some ([], (c :: rest).drop 2)
    else if c = '\n' then none
    else
      match findBoldClose rest with
      | some (content, after) => some (c :: content, after)
      | none => none

/-- The global scan of the second `replace`: pairs of double asterisks with a
newline-free body become strong elements; everything else passes through. -/
def boldReplaceAux : Nat → List Char → List Char
  | 0, rest => rest
  | _ + 1, [] => []
  | fuel + 1, c :: rest =>
    if startsWithStars (c :: rest) then
      match findBoldClose ((c :: rest).drop 2) with
      | some (content, after) =>
          "<strong>".data ++ content ++ "</strong>".data ++ boldReplaceAux fuel after
      | none => c :: boldReplaceAux fuel rest
    else c :: boldReplaceAux fuel rest

/-- The second `replace` of `simpleMarkdownToHtml` (bold markers). -/
def boldReplace (s : String) : String :=
  String.mk (boldReplaceAux s.data.length s.data)

/-- Find the first closing pre tag; body before it, remainder after it. -/
def findClosePre : List Char → Option (List Char × List Char)
  | [] => none
  | c :: rest =>
    if "</pre>".data.isPrefixOf (c :: rest) then some ([], (c :: rest).drop 6)
    else
      match findClosePre rest with
      | some (content, after) => some (c :: content, after)
      | none => none

/-- Split `html.split(/(<pre>[\s\S]*?<\/pre>)/)`: with a capturing group the
separators stay in the result, so the parts alternate between plain text
(possibly empty) and whole pre elements. -/
def splitPreAux : Nat → List Char → List Char → List String
  | 0, acc, rest => [String.mk (acc.reverse ++ rest)]
  | _ + 1, acc, [] => [String.mk acc.reverse]
  | fuel + 1, acc, c :: rest =>
    if "<pre>".data.isPrefixOf (c :: rest) then
      match findClosePre ((c :: rest).drop 5) with
      | some (content, after) =>
          String.mk acc.reverse
            :: String.mk ("<pre>".data ++ content ++ "</pre>".data)
            :: splitPreAux fuel [] after
      | none => splitPreAux fuel (c :: acc) rest
    else splitPreAux fuel (c :: acc) rest

/-- The split step of `simpleMarkdownToHtml` (line 76). -/
def splitPre (s : String) : List String :=
  splitPreAux s.data.length [] s.data

/-- The inner line loop of `simpleMarkdownToHtml` (lines 83-101): `inList` is
the loop flag; list lines open/extend an unordered list, other lines close a
pending list and emit a paragraph; a pending list is closed at the end. -/
def renderLines : List String → Bool → String
  | [], inList => if inList then "</ul>" else ""
  | line :: rest, inList =>
    if "* ".data.isPrefixOf (trimString line).data then
      (if inList then "" else "<ul>")
        ++ ("<li>" ++ String.mk ((trimString line).data.drop 2) ++ "</li>")
        ++ renderLines rest true
    else
      (if inList then "</ul>" else "") ++ ("<p>" ++ line ++ "</p>")
        ++ renderLines rest false

/-- One part of the split: pre elements pass through; other parts are split
into lines, blank (whitespace-only) lines are dropped, and the remaining
lines go through the line loop. -/
def renderPart (part : String) : String :=
  if "<pre>".data.isPrefixOf part.data then part
  else renderLines ((splitOnNl part).filter (fun l => trimString l ≠ "")) false

/-- Renderer `simpleMarkdownToHtml`: fence replacement, then bold replacement, then
the split around pre elements, then the per-part line loop, concatenated. -/
def simpleMarkdownToHtml (markdown : String) : String :=
  String.join ((splitPre (boldReplace (replaceFences markdown))).map renderPart)

/-! ### Persistence (`saveState` / `loadState`, src/index.tsx lines 123-132)

`saveState` stores `JSON.stringify(state)` under one key; `loadState` assigns
`JSON.parse(savedState)` back to `state` when the key is present.  The JSON
layer is modelled at the level of JSON values: `Jsonv` is the type of parsed
JSON, `encodeAppState` is the JSON value `JSON.stringify` serializes
(`undefined` optional fields are omitted from the object, as `stringify`
does), and `decodeAppState` reads a stored JSON value back at the `AppState`
type, failing on shapes that do not fit it. -/

/-- Parsed JSON values (numbers restricted to the integers this state uses). -/
inductive Jsonv where
  | str (s : String)
  | num (n : Nat)
  | bool (b : Bool)
  | null
  | arr (xs : List Jsonv)
  | obj (fields : List (String × Jsonv))

/-- Field lookup in a JSON object. -/
def jGet (fields : List (String × Jsonv)) (k : String) : Option Jsonv :=
  (fields.find? (fun f => f.1 = k)).map (fun f => f.2)

/-- Append an optional field (omitted if the value is absent, as
`JSON.stringify` omits `undefined` properties). -/
def jOptField (k : String) (v : Option Jsonv) : List (String × Jsonv) :=
  match v with
  | some j => [(k, j)]
  | none => []

def encodeCitation (c : Citation) : Jsonv :=
  .obj [("web", .obj ([("uri", .str c.uri)] ++ jOptField "title" (c.title.map .str)))]

def encodeCode (c : CodeArtifact) : Jsonv :=
  .obj [("html", .str c.html), ("css", .str c.css), ("javascript", .str c.javascript)]

def encodeMessage (m : Message) : Jsonv :=
  .obj ([("role", .str (match m.role with | .user => "user" | .model => "model")),
         ("text", .str m.text)]
    ++ jOptField "image" (m.image.map .str)
    ++ jOptField "video" (m.video.map .str)
    ++ jOptField "sources" (m.sources.map (fun cs => .arr (cs.map encodeCitation)))
    ++ jOptField "code" (m.code.map encodeCode))

def encodeChat (c : Chat) : Jsonv :=
  .obj [("id", .num c.id), ("title", .str c.title),
        ("history", .arr (c.history.map encodeMessage))]

def encodeAppState (st : AppState) : Jsonv :=
  .obj [("isAuthenticated", .bool st.isAuthenticated),
        ("chats", .arr (st.chats.map encodeChat)),
        ("activeChatId", match st.activeChatId with | some i => .num i | none => .null),
        ("nextChatId", .num st.nextChatId)]

def asStr : Jsonv → Option String
  | .str s => some s
  | _ => none

def asNum : Jsonv → Option Nat
  | .num n => some n
  | _ => none

def decodeCitation : Jsonv → Option Citation
  | .obj f =>
    match jGet f "web" with
    | some (.obj w) =>
      match jGet w "uri" with
      | some (.str uri) => some ⟨uri, (jGet w "title").bind asStr⟩
      | _ => none
    | _ => none
  | _ => none

def decodeCode : Jsonv → Option CodeArtifact
  | .obj f =>
    match jGet f "html", jGet f "css", jGet f "javascript" with
    | some (.str h), some (.str c), some (.str j) => some ⟨h, c, j⟩
    | _, _, _ => none
  | _ => none

def decodeList (dec : Jsonv → Option α) : List Jsonv → Option (List α)
  | [] => some []
  | j :: rest =>
    match dec j, decodeList dec rest with
    | some x, some xs => some (x :: xs)
    | _, _ => none

def decodeMessage : Jsonv → Option Message
  | .obj f =>
    match jGet f "role", jGet f "text" with
    | some (.str r), some (.str t) =>
      let role := if r = "user" then some Role.user
                  else if r = "model" then some Role.model else none
      match role with
      | some ro =>
        let srcs := match jGet f "sources" with
          | some (.arr js) => (decodeList decodeCitation js).map some
          | none => some none
          | _ => none
        match srcs with
        | some s =>
          some { role := ro, text := t, image := (jGet f "image").bind asStr,
                 video := (jGet f "video").bind asStr, sources := s,
                 code := (jGet f "code").bind decodeCode }
        | none => none
      | none => none
    | _, _ => none
  | _ => none

def decodeChat : Jsonv → Option Chat
  | .obj f =>
    match jGet f "id", jGet f "title", jGet f "history" with
    | some (.num i), some (.str t), some (.arr hs) =>
      (decodeList decodeMessage hs).map (fun h => ⟨i, t, h⟩)
    | _, _, _ => none
  | _ => none

def decodeAppState : Jsonv → Option AppState
  | .obj f =>
    match jGet f "isAuthenticated", jGet f "chats", jGet f "activeChatId", jGet f "nextChatId" with
    | some (.bool a), some (.arr cs), some activeJ, some (.num n) =>
      match decodeList decodeChat cs with
      | some chats =>
        match activeJ with
        | .null => some ⟨a, chats, none, n⟩
        | .num i => some ⟨a, chats, some i, n⟩
        | _ => none
      | none => none
    | _, _, _, _ => none
  | _ => none

/-- Function `saveState()`: the JSON value written to storage under the state key. -/
def saveState (st : AppState) : Jsonv :=
  encodeAppState st

/-- Function `loadState()`: given the stored JSON value (or `none` when the key is
absent) and the current state, the state after the load.  The source assigns
the parsed value directly; reading it back at the `AppState` type is the
decoder, so a stored value of the right shape replaces the state and an
absent key leaves it unchanged. -/
def loadState (savedState : Option Jsonv) (st : AppState) : Option AppState :=
  match savedState with
  | some j => decodeAppState j
  | none => some st

/-! ### Session controller: `handleAuthClick`, `handleNewChat`, `handleTabSwitch`
(src/index.tsx lines 439-470)

Each handler returns the new state together with the list of chat ids it
issued (ids of chats it created), used to state the id-reuse claims. -/

/-- Handler `handleNewChat`: creates a chat with id `nextChatId`, increments the
counter, appends the chat and makes it active. -/
def handleNewChat (st : AppState) : AppState × List Nat :=
  let newChat : Chat := { id := st.nextChatId, title := "Chat " ++ toString st.nextChatId,
                          history := [] }
  ({ st with nextChatId := st.nextChatId + 1,
             chats := st.chats ++ [newChat],
             activeChatId := some newChat.id }, [newChat.id])

/-- Handler `handleAuthClick`: sign-out replaces the state by the empty default
(including `nextChatId: 1`); sign-in sets the flag and creates a first chat
when there is none. -/
def handleAuthClick (st : AppState) : AppState × List Nat :=
  if st.isAuthenticated then
    ({ isAuthenticated := false, chats := [], activeChatId := none, nextChatId := 1 }, [])
  else
    let st1 := { st with isAuthenticated := true }
    if st1.chats.length = 0 then handleNewChat st1 else (st1, [])

/-- Handler `handleTabSwitch`: no-op when the chat is already active. -/
def handleTabSwitch (st : AppState) (chatId : Nat) : AppState :=
  if some chatId = st.activeChatId then st
  else { st with activeChatId := some chatId }

/-- The user events that mutate the chat structure of the session. -/
inductive Event where
  | authClick
  | newChat
  | tabSwitch (chatId : Nat)
deriving DecidableEq, Repr

/-- One event step: next state and the chat ids issued by the step. -/
def stepEvent (st : AppState) : Event → AppState × List Nat
  | .authClick => handleAuthClick st
  | .newChat => handleNewChat st
  | .tabSwitch cid => (handleTabSwitch st cid, [])

/-- Run a sequence of events, accumulating every issued chat id in order. -/
def runEvents (st : AppState) : List Event → AppState × List Nat
  | [] => (st, [])
  | e :: es =>
    let (st1, ids) := stepEvent st e
    let (st2, rest) := runEvents st1 es
    (st2, ids ++ rest)

/-! ### `handleSearch` (src/index.tsx lines 135-178)

The controller reads the input value, applies the guard, pushes the user
message, persists, pushes the pending model message, dispatches on the
classifier, and in the `finally` block clears the loading flag, re-renders
and persists.  The effect of the selected handler on the pending model message is
abstracted as a function from the mode and the fresh pending message to the
final message contents and a flag saying whether the handler threw (the
`catch` then overwrites the text with the generic apology).  The result
records the final state, the final loading flag, and every state snapshot
passed to `saveState`, in order. -/

/-- JavaScript truthiness of `state.activeChatId : number | null`:
`null` and `0` are falsy. -/
def idIsFalsy : Option Nat → Bool
  | none => true
  | some i => i = 0

/-- Lookup `state.chats.find(c => c.id === cid)` followed by an in-place update:
replaces the first chat with the given id. -/
def updateFirstChat (chats : List Chat) (cid : Nat) (f : Chat → Chat) : List Chat :=
  match chats with
  | [] => []
  | c :: rest => if c.id = cid then f c :: rest else c :: updateFirstChat rest cid f

/-- The generic apology substituted by the `catch` block of `handleSearch`. -/
def searchApologyText : String :=
  "Sorry, an error occurred. Please try again."

/-- Outcome of one `handleSearch` invocation. -/
structure SearchResult where
  state : AppState
  isLoading : Bool
  saves : List AppState
deriving Repr

/-- Controller `handleSearch`: `inputValue` is `searchInput.value`, `loading` the
`isLoading` flag on entry, `handler` the abstracted generation handler
(returning the final pending-message contents and whether it threw).
When the guard fails the call returns untouched.  When the active chat id
refers to no chat, the non-null assertion on `find` makes the source throw
before the `try` block, after `isLoading` was set: state unchanged, flag
stuck at `true`, nothing saved. -/
def handleSearch (inputValue : String) (loading : Bool) (st : AppState)
    (handler : Mode → Message → Message × Bool) : SearchResult :=
  let query := trimString inputValue
  if query = "" || loading || idIsFalsy st.activeChatId then
    { state := st, isLoading := loading, saves := [] }
  else
    match st.activeChatId with
    | none => { state := st, isLoading := loading, saves := [] }
    | some cid =>
      if st.chats.any (fun c => c.id = cid) then
        let userMsg : Message := { role := .user, text := query }
        let st1 := { st with chats := (updateFirstChat st.chats cid
                      (fun c => { c with history := c.history ++ [userMsg] })) }
        let pending : Message := { role := .model, text := "" }
        let res := handler (classify query) pending
        let finalMsg := if res.2 then { res.1 with text := searchApologyText } else res.1
        let st2 := { st with chats := (updateFirstChat st.chats cid
                      (fun c => { c with history := c.history ++ [userMsg, finalMsg] })) }
        { state := st2, isLoading := false, saves := [st1, st2] }
      else
        { state := st, isLoading := true, saves := [] }

/-! ### `handleVideoGeneration` (src/index.tsx lines 206-253)

The network/credential steps are abstracted: `hasKey` is the result of
`window.aistudio.hasSelectedApiKey()`, and `oracle isRetry` is the outcome of
one complete submit/poll/download attempt made with the given retry flag
(`.success uri` when a blob URL was produced, `.failure msg` when any step
threw an error whose optional `message` is `msg`).  The result counts the
`openSelectKey` prompts and the attempts made, and carries the final message. -/

/-- Outcome of one complete video generation attempt. -/
inductive VideoAttempt where
  | success (uri : String)
  | failure (message : Option String)

/-- The credential-invalidity signature tested with `includes`. -/
def entityNotFoundSig : String :=
  "Requested entity was not found"

/-- Test applied by the catch block: the optional error message contains the
credential signature (an error without a message is falsy). -/
def errMatchesSig : Option String → Bool
  | some s => containsSubstr s entityNotFoundSig
  | none => false

/-- Result of `handleVideoGeneration`: final message, number of
`openSelectKey` calls, number of generation attempts made. -/
structure VideoOutcome where
  message : Message
  prompts : Nat
  attemptsMade : Nat
deriving DecidableEq, Repr

/-- Terminal text after a second credential failure. -/
def videoFailedAgainText : String :=
  "Video generation failed again. Please ensure your selected key is valid and has billing enabled."

/-- Generic terminal text for any other error. -/
def videoGenericFailText : String :=
  "Sorry, I couldn\x27t create that video."

/-- Success text. -/
def videoSuccessText : String :=
  "Here is the video you requested."

/-- Handler `handleVideoGeneration`: on a non-retry call without a selected key, one
`openSelectKey` prompt precedes the attempt; a failure matching the
credential signature on a non-retry call prompts again and recurses once with
the retry flag set; the same failure on the retry is terminal, as is any
other failure. -/
def handleVideoGeneration (hasKey : Bool) (oracle : Bool → VideoAttempt)
    (message : Message) (isRetry : Bool) : VideoOutcome :=
  let initialPrompts := if !isRetry && !hasKey then 1 else 0
  match oracle isRetry with
  | .success uri =>
    { message := { message with video := some uri, text := videoSuccessText },
      prompts := initialPrompts, attemptsMade := 1 }
  | .failure em =>
    if errMatchesSig em then
      if isRetry then
        { message := { message with text := videoFailedAgainText },
          prompts := initialPrompts, attemptsMade := 1 }
      else
        let r := handleVideoGeneration hasKey oracle message true
        { message := r.message, prompts := initialPrompts + 1 + r.prompts,
          attemptsMade := 1 + r.attemptsMade }
    else
      { message := { message with text := videoGenericFailText },
        prompts := initialPrompts, attemptsMade := 1 }
termination_by if isRetry then 0 else 1
decreasing_by simp [*]

/-! ### `handleTextSearch` (src/index.tsx lines 272-290) -/

/-- One chunk of the search stream: optional text increment and the optional
`groundingMetadata.groundingChunks` list (`none` when the metadata or the
list is absent). -/
structure Chunk where
  text : Option String
  groundingChunks : Option (List Citation)
deriving DecidableEq, Repr

/-- The body of the `for await` loop of `handleTextSearch`, folded over
`(fullText, message)`: a truthy (non-empty) text increment is appended, and a
grounding list with positive length replaces `message.sources`. -/
def textSearchStep (acc : String × Message) (ch : Chunk) : String × Message :=
  let fullText := match ch.text with
    | some t => if t ≠ "" then acc.1 ++ t else acc.1
    | none => acc.1
  let msg := match ch.groundingChunks with
    | some gs => if gs.length > 0 then { acc.2 with sources := some gs } else acc.2
    | none => acc.2
  (fullText, msg)

/-- Handler `handleTextSearch`: folds the stream, then sets `message.text` to the
accumulated text. -/
def handleTextSearch (chunks : List Chunk) (message : Message) : Message :=
  let r := chunks.foldl textSearchStep ("", message)
  { r.2 with text := r.1 }

/-- The last chunk carrying a non-empty grounding list, read off the stream
from the right (specification formulation: last-non-empty-wins). -/
def lastNonEmptyGrounding (chunks : List Chunk) : Option (List Citation) :=
  (chunks.reverse.find? (fun ch =>
    match ch.groundingChunks with
    | some gs => decide (gs.length > 0)
    | none => false)).bind (fun ch => ch.groundingChunks)

/-- The last message of the chat with the given id, if any. -/
def lastMessageOfChat (st : AppState) (cid : Nat) : Option Message :=
  ((st.chats.find? (fun c => c.id = cid)).map Chat.history).bind List.getLast?

/-- The id-related session invariant the code actually maintains: every chat
id in the session is below the counter, and the ids are distinct. -/
def chatIdsInv (st : AppState) : Prop :=
  (∀ c ∈ st.chats, c.id < st.nextChatId) ∧ (st.chats.map Chat.id).Nodup

/-! ## Theorems for the claims -/

/-- C2: invoking `handleSearch` while `isLoading` is already true returns
without appending to the history of any chat or otherwise modifying the session:
the state is untouched, the flag stays true, nothing is persisted and no
query is queued. -/
theorem handleSearch_loading_noop (inputValue : String) (st : AppState)
    (handler : Mode → Message → Message × Bool) :
    handleSearch inputValue true st handler =
      { state := st, isLoading := true, saves := [] } := by
  simp [handleSearch]

/-- C10: a query that trims to the empty string, or an absent active chat id,
makes `handleSearch` return immediately even when not loading — nothing is
appended, the loading flag stays false, nothing is persisted, the session is
unchanged. -/
theorem handleSearch_empty_or_noactive_noop (inputValue : String) (st : AppState)
    (handler : Mode → Message → Message × Bool)
    (h : trimString inputValue = "" ∨ st.activeChatId = none) :
    handleSearch inputValue false st handler =
      { state := st, isLoading := false, saves := [] } := by
  rcases h with h | h <;> simp [handleSearch, idIsFalsy, h]

theorem handleSearch_empty_or_noactive_witness :
    handleSearch "   " false initialState (fun _ m => (m, false)) =
      { state := initialState, isLoading := false, saves := [] } :=
  handleSearch_empty_or_noactive_noop "   " initialState (fun _ m => (m, false))
    (Or.inl (by decide))

/-- C1, counterexample: `handleAuthClick` resets `nextChatId` to 1 on
sign-out, so after signing in, creating a second chat, signing out and
signing back in, the counter (1) is not above the previously issued id 2, and
the first chat created after the sign-in re-uses id 1. -/
theorem chatId_reuse_counterexample :
    (runEvents initialState [.authClick, .newChat, .authClick]).1.nextChatId = 1
  ∧ 2 ∈ (runEvents initialState [.authClick, .newChat, .authClick]).2
  ∧ ¬ (runEvents initialState [.authClick, .newChat, .authClick]).1.nextChatId > 2
  ∧ (runEvents initialState [.authClick, .newChat, .authClick, .authClick]).2 = [1, 2, 1] := by
  decide

/-- C4: the classifier applies its rules in the fixed order Image (anchored),
Video, Code, TextSearch, returning the first match case-insensitively; any
query starting with an image-intent prefix is Image no matter what follows,
and the four sample queries classify as the spec says. -/
theorem classify_spec :
    (∀ q p, p ∈ imageKeywordList → p.data.isPrefixOf (toLowerString q).data = true →
      classify q = .Image)
  ∧ classify "draw a video game character" = .Image
  ∧ classify "animate a logo" = .Video
  ∧ classify "write a function to sort" = .Code
  ∧ classify "who won the 2022 world cup" = .TextSearch := by
  refine ⟨?_, by decide, by decide, by decide, by decide⟩
  intro q p hp hpre
  have himg : imageKeywordsTest q = true := by
    simp only [imageKeywordsTest, List.any_eq_true]
    exact ⟨p, hp, hpre⟩
  simp [classify, himg]

theorem classify_spec_witness :
    ("draw" ∈ imageKeywordList ∧
     "draw".data.isPrefixOf (toLowerString "draw a video game character").data = true)
  ∧ classify "draw a video game character" = .Image :=
  ⟨⟨by decide, by decide⟩,
   classify_spec.1 "draw a video game character" "draw" (by decide) (by decide)⟩

/-- C5: one fenced html block plus one fenced css block and no javascript
block yield a code object with non-empty `html`, non-empty `css` and empty
`javascript`; inputs with no fenced block of a recognized language (none at
all, or only an unrecognized language) yield `none` rather than an empty
object; two blocks of the same language are concatenated with a newline
separating them. -/
theorem extractCode_spec :
    extractCode "intro\n\x60\x60\x60html\n<div>hi</div>\n\x60\x60\x60\nmid\n\x60\x60\x60css\nbody \x7b color: red \x7d\n\x60\x60\x60\nbye"
      = some { html := "<div>hi</div>\n", css := "body \x7b color: red \x7d\n", javascript := "" }
  ∧ extractCode "no fenced blocks at all" = none
  ∧ extractCode "\x60\x60\x60python\nprint(1)\n\x60\x60\x60" = none
  ∧ extractCode "\x60\x60\x60html\n<p>a</p>\n\x60\x60\x60\nmid\n\x60\x60\x60html\n<p>b</p>\n\x60\x60\x60"
      = some { html := "<p>a</p>" ++ "\n" ++ "<p>b</p>" ++ "\n", css := "", javascript := "" } := by
  refine ⟨by decide, by decide, by decide, by decide⟩

/-- The concrete session of the round-trip claim: two chats, the first empty,
the second holding three messages among which an image result and a code
artifact. -/
def roundtripSample : AppState :=
  { isAuthenticated := true,
    chats :=
      [ { id := 1, title := "Chat 1", history := [] },
        { id := 2, title := "Chat 2", history :=
            [ { role := .user, text := "draw a cat, then make an app" },
              { role := .model, text := "Here is the image you requested.",
                image := some "data:image/png;base64,iVBORw0KG" },
              { role := .model, text := "Here is the code.",
                sources := some [⟨"https://example.com", some "Example"⟩],
                code := some { html := "<div id=\x22app\x22></div>",
                               css := "#app \x7b border: none \x7d",
                               javascript := "console.log(1)" } } ] } ],
    activeChatId := some 2,
    nextChatId := 3 }

/-- C8: serializing the two-chat sample session with `saveState` and
restoring it with `loadState` reproduces the identical chat list, active chat
id and next-id counter. -/
theorem state_roundtrip :
    loadState (some (saveState roundtripSample)) initialState = some roundtripSample := by
  decide

/-- One cons step of `lastNonEmptyGrounding`. -/
theorem lastNonEmptyGrounding_cons (ch : Chunk) (rest : List Chunk) :
    lastNonEmptyGrounding (ch :: rest) =
      match lastNonEmptyGrounding rest with
      | some gs => some gs
      | none =>
        match ch.groundingChunks with
        | some gs => if gs.length > 0 then some gs else none
        | none => none := by
  unfold lastNonEmptyGrounding
  rw [List.reverse_cons, List.find?_append]
  set p := (fun ch : Chunk =>
      match ch.groundingChunks with
      | some gs => decide (gs.length > 0)
      | none => false) with hp
  rcases hfind : List.find? p rest.reverse with _ | c
  · rcases hg : ch.groundingChunks with _ | gs
    · simp [Option.or, List.find?, hp, hg]
    · by_cases hlen : gs.length > 0
      · simp [Option.or, List.find?, hp, hg, hlen]
      · simp [Option.or, List.find?, hp, hg, hlen]
  · have hc := List.find?_some hfind
    simp only [hp] at hc
    rcases hg : c.groundingChunks with _ | gs
    · rw [hg] at hc; simp at hc
    · rw [hg] at hc
      simp at hc
      simp [Option.or, hg, hc]

/-- The sources field after folding the stream, for any accumulator. -/
theorem textSearch_foldl_sources (chunks : List Chunk) :
    ∀ acc : String × Message,
      (chunks.foldl textSearchStep acc).2.sources =
        match lastNonEmptyGrounding chunks with
        | some gs => some gs
        | none => acc.2.sources := by
  induction chunks with
  | nil => intro acc; simp [lastNonEmptyGrounding]
  | cons ch rest ih =>
    intro acc
    rw [List.foldl_cons, ih, lastNonEmptyGrounding_cons]
    rcases hrest : lastNonEmptyGrounding rest with _ | gs
    · rcases hg : ch.groundingChunks with _ | gs
      · simp [textSearchStep, hg]
      · by_cases hlen : gs.length > 0
        · simp [textSearchStep, hg, hlen]
        · simp [textSearchStep, hg, hlen]
    · rfl

/-- C9: in the text-search handler, the resulting `sources` is the grounding
list of the last increment that carried a non-empty one (wholesale
replacement, no accumulation), and stays at its initial value when no
increment carried a non-empty list. -/
theorem textSearch_sources_last_wins (chunks : List Chunk) (message : Message) :
    (handleTextSearch chunks message).sources =
      match lastNonEmptyGrounding chunks with
      | some gs => some gs
      | none => message.sources := by
  unfold handleTextSearch
  exact textSearch_foldl_sources chunks ("", message)

/-- Updating the first chat with a given id commutes with looking it up,
for the history-only updates `handleSearch` performs. -/
theorem find?_updateFirstChat_hist (chats : List Chat) (cid : Nat) (g : Chat → List Message) :
    (updateFirstChat chats cid (fun c => { c with history := g c })).find? (fun c => c.id = cid) =
      (chats.find? (fun c => c.id = cid)).map (fun c => { c with history := g c }) := by
  induction chats with
  | nil => simp [updateFirstChat]
  | cons c rest ih =>
    by_cases h : c.id = cid
    · simp [updateFirstChat, List.find?, h]
    · simp [updateFirstChat, List.find?, h, ih]

/-- C6: when the guard passes and the active chat exists, `handleSearch`
ends with the loading gate released on every exit path, the last persisted
snapshot is exactly the final state, and when the selected handler threw,
the text of the pending model message has been replaced by the generic apology
before that final persist; no handler failure escapes (`handleSearch` always
returns a result). -/
theorem handleSearch_gate_release (inputValue : String) (st : AppState) (cid : Nat)
    (handler : Mode → Message → Message × Bool)
    (hq : trimString inputValue ≠ "")
    (ha : st.activeChatId = some cid)
    (h0 : cid ≠ 0)
    (he : st.chats.any (fun c => c.id = cid) = true) :
    (handleSearch inputValue false st handler).isLoading = false
  ∧ (handleSearch inputValue false st handler).saves ≠ []
  ∧ (handleSearch inputValue false st handler).saves.getLast? =
      some (handleSearch inputValue false st handler).state
  ∧ ((handler (classify (trimString inputValue)) { role := .model, text := "" }).2 = true →
      (lastMessageOfChat (handleSearch inputValue false st handler).state cid).map Message.text
        = some searchApologyText) := by
  refine ⟨?_, ?_, ?_, ?_⟩
  · simp [handleSearch, ha, idIsFalsy, hq, h0, he]
  · simp [handleSearch, ha, idIsFalsy, hq, h0, he]
  · simp [handleSearch, ha, idIsFalsy, hq, h0, he]
  · intro hthrew
    simp only [handleSearch, ha, idIsFalsy, hq, h0, he, hthrew, lastMessageOfChat]
    simp [hq, h0, he, hthrew, find?_updateFirstChat_hist]
    obtain ⟨c0, hc0mem, hc0⟩ := List.any_eq_true.mp he
    rcases hfind : List.find? (fun c => decide (c.id = cid)) st.chats with _ | c1
    · exact absurd (List.find?_eq_none.mp hfind c0 hc0mem) (by simp [of_decide_eq_true hc0])
    · rw [hfind]
      simp [Function.comp, List.getLast?_append, Option.or]

/-- Concrete session for the gate-release witness. -/
def gateWitnessState : AppState :=
  { isAuthenticated := true, chats := [{ id := 1, title := "Chat 1", history := [] }],
    activeChatId := some 1, nextChatId := 2 }

/-- A handler that always throws, for the gate-release witness. -/
def gateWitnessHandler : Mode → Message → Message × Bool :=
  fun _ m => (m, true)

theorem handleSearch_gate_release_witness :
    (handleSearch "hello" false gateWitnessState gateWitnessHandler).isLoading = false
  ∧ (handleSearch "hello" false gateWitnessState gateWitnessHandler).saves ≠ []
  ∧ (handleSearch "hello" false gateWitnessState gateWitnessHandler).saves.getLast? =
      some (handleSearch "hello" false gateWitnessState gateWitnessHandler).state
  ∧ ((gateWitnessHandler (classify (trimString "hello")) { role := .model, text := "" }).2 = true →
      (lastMessageOfChat (handleSearch "hello" false gateWitnessState gateWitnessHandler).state 1).map
          Message.text = some searchApologyText) :=
  handleSearch_gate_release "hello" gateWitnessState 1 gateWitnessHandler
    (by decide) rfl (by decide) (by decide)

/-- C3: in the video handler, a credential-invalidity failure ("entity not
found") on the first attempt triggers exactly one automatic retry with the
retry flag set and exactly one extra credential prompt; a second such failure
on the retry is terminal with the failed-again message and no further
attempt; any error not matching the signature is terminal on first occurrence
with the generic failure message and no retry. -/
theorem video_retry_policy (hasKey : Bool) (oracle : Bool → VideoAttempt) (msg : Message) :
    (∀ e1 e2, oracle false = .failure e1 → errMatchesSig e1 = true →
      oracle true = .failure e2 → errMatchesSig e2 = true →
        handleVideoGeneration hasKey oracle msg false =
          { message := { msg with text := videoFailedAgainText },
            prompts := (if hasKey then 0 else 1) + 1,
            attemptsMade := 2 })
  ∧ (∀ e1, oracle false = .failure e1 → errMatchesSig e1 = false →
        handleVideoGeneration hasKey oracle msg false =
          { message := { msg with text := videoGenericFailText },
            prompts := if hasKey then 0 else 1,
            attemptsMade := 1 })
  ∧ (∀ e2, oracle true = .failure e2 → errMatchesSig e2 = true →
        handleVideoGeneration hasKey oracle msg true =
          { message := { msg with text := videoFailedAgainText },
            prompts := 0, attemptsMade := 1 }) := by
  refine ⟨?_, ?_, ?_⟩
  · intro e1 e2 h1 hm1 h2 hm2
    rw [handleVideoGeneration.eq_def]
    simp only [h1, hm1, if_true]
    rw [handleVideoGeneration.eq_def]
    simp only [h2, hm2, if_true]
    cases hasKey <;> simp
  · intro e1 h1 hm1
    rw [handleVideoGeneration.eq_def]
    simp only [h1, hm1]
    cases hasKey <;> simp
  · intro e2 h2 hm2
    rw [handleVideoGeneration.eq_def]
    simp only [h2, hm2, if_true]
    simp

/-- Oracle that fails with the credential signature on both attempts. -/
def retryWitnessOracle : Bool → VideoAttempt :=
  fun _ => .failure (some "Error: Requested entity was not found.")

theorem video_retry_policy_witness :
    handleVideoGeneration true retryWitnessOracle { role := .model, text := "" } false =
      { message := { role := .model, text := videoFailedAgainText },
        prompts := 1, attemptsMade := 2 } :=
  (video_retry_policy true retryWitnessOracle { role := .model, text := "" }).1
    (some "Error: Requested entity was not found.")
    (some "Error: Requested entity was not found.")
    rfl (by decide) rfl (by decide)

/-- Creation via `handleNewChat` preserves the id invariant. -/
theorem chatIdsInv_handleNewChat {st : AppState} (h : chatIdsInv st) :
    chatIdsInv (handleNewChat st).1 := by
  obtain ⟨hb, hn⟩ := h
  constructor
  · intro c hc
    simp only [handleNewChat, List.mem_append, List.mem_singleton] at hc
    rcases hc with hc | hc
    · exact Nat.lt_succ_of_lt (hb c hc)
    · subst hc; exact Nat.lt_succ_self _
  · simp only [handleNewChat, List.map_append, List.map_cons, List.map_nil]
    rw [List.nodup_append]
    refine ⟨hn, List.nodup_singleton _, ?_⟩
    intro a ha
    simp only [List.mem_singleton]
    obtain ⟨c, hcmem, rfl⟩ := List.mem_map.mp ha
    exact Nat.ne_of_lt (hb c hcmem)

/-- C1, amended: the counter dominates the id of every chat currently in the
session and ids within the session are distinct (an invariant preserved by
every session event), but sign-out resets the counter, so the first chat
created after signing out and back in always has id 1 — ids issued before the
sign-out can be reused. -/
theorem chatIds_inv_and_reset :
    (∀ st e, chatIdsInv st → chatIdsInv (stepEvent st e).1)
  ∧ (∀ st, st.isAuthenticated = true →
      (stepEvent (stepEvent st .authClick).1 .authClick).1.chats.map Chat.id = [1]
      ∧ (stepEvent (stepEvent st .authClick).1 .authClick).2 = [1]) := by
  constructor
  · intro st e h
    cases e with
    | newChat => exact chatIdsInv_handleNewChat h
    | tabSwitch cid =>
      obtain ⟨hb, hn⟩ := h
      unfold stepEvent handleTabSwitch
      by_cases hc : some cid = st.activeChatId <;> simp [hc, chatIdsInv] <;> exact ⟨hb, hn⟩
    | authClick =>
      unfold stepEvent handleAuthClick
      by_cases hauth : st.isAuthenticated
      · simp [hauth, chatIdsInv]
      · by_cases hlen : st.chats.length = 0
        · simp only [hauth, Bool.false_eq_true, if_false, hlen, if_true]
          exact chatIdsInv_handleNewChat h
        · simp only [hauth, Bool.false_eq_true, if_false, hlen, if_true]
          simp [hlen, chatIdsInv]
          exact h
  · intro st hauth
    simp [stepEvent, handleAuthClick, hauth, handleNewChat]

theorem chatIds_inv_and_reset_witness :
    chatIdsInv (stepEvent initialState .newChat).1
  ∧ (stepEvent (stepEvent
      { isAuthenticated := true, chats := [{ id := 5, title := "Chat 5", history := [] }],
        activeChatId := some 5, nextChatId := 6 } .authClick).1 .authClick).1.chats.map Chat.id
      = [1] :=
  ⟨chatIds_inv_and_reset.1 initialState .newChat (by simp [chatIdsInv, initialState]),
   (chatIds_inv_and_reset.2
      { isAuthenticated := true, chats := [{ id := 5, title := "Chat 5", history := [] }],
        activeChatId := some 5, nextChatId := 6 } rfl).1⟩

/-- Auxiliary: folding string append from any accumulator. -/
theorem foldl_append_str (l : List String) :
    ∀ a : String, l.foldl (· ++ ·) a = a ++ l.foldl (· ++ ·) "" := by
  induction l with
  | nil => intro a; simp
  | cons s rest ih =>
    intro a
    rw [List.foldl_cons, List.foldl_cons, ih (a ++ s), ih ("" ++ s), String.append_assoc]
    simp

/-- Unfolding `String.join` by one cons. -/
theorem stringJoin_cons (s : String) (l : List String) :
    String.join (s :: l) = s ++ String.join l := by
  show (s :: l).foldl (· ++ ·) "" = s ++ l.foldl (· ++ ·) ""
  rw [List.foldl_cons, foldl_append_str]
  simp

/-- The list-item markup produced for a run of list lines. -/
def listItemsHtml (xs : List String) : String :=
  String.join (xs.map (fun l => "<li>" ++ String.mk ((trimString l).data.drop 2) ++ "</li>"))

/-- Inside an open list, a run of list lines contributes only items and one
closing tag. -/
theorem renderLines_true_all (xs : List String)
    (h : ∀ l ∈ xs, "* ".data.isPrefixOf (trimString l).data = true) :
    renderLines xs true = listItemsHtml xs ++ "</ul>" := by
  induction xs with
  | nil => simp [renderLines, listItemsHtml, String.join]
  | cons l rest ih =>
    have hl := h l (List.mem_cons_self l rest)
    rw [renderLines, if_pos hl, ih (fun x hx => h x (List.mem_cons_of_mem l hx))]
    simp [listItemsHtml, stringJoin_cons, String.append_assoc]

/-- C7: the sample input renders as exactly one paragraph holding an emphasis
span followed by exactly one unordered list holding two items; in general a
non-empty run of consecutive list lines produces a single unordered list with
one item per line, other non-blank lines each produce their own paragraph,
and blank lines are dropped (second sample). -/
theorem markdown_render_spec :
    simpleMarkdownToHtml "**bold** \n* item1\n* item2"
      = "<p><strong>bold</strong> </p><ul><li>item1</li><li>item2</li></ul>"
  ∧ (∀ xs : List String, xs ≠ [] →
      (∀ l ∈ xs, "* ".data.isPrefixOf (trimString l).data = true) →
        renderLines xs false = "<ul>" ++ listItemsHtml xs ++ "</ul>")
  ∧ simpleMarkdownToHtml "line one\n\nline two" = "<p>line one</p><p>line two</p>" := by
  refine ⟨by decide, ?_, by decide⟩
  intro xs hne h
  match xs with
  | l :: rest =>
    have hl := h l (List.mem_cons_self l rest)
    rw [renderLines, if_pos hl,
        renderLines_true_all rest (fun x hx => h x (List.mem_cons_of_mem l hx))]
    simp [listItemsHtml, stringJoin_cons, String.append_assoc]

theorem markdown_render_spec_witness :
    renderLines ["* item1", "* item2"] false
      = "<ul>" ++ listItemsHtml ["* item1", "* item2"] ++ "</ul>" :=
  markdown_render_spec.2.1 ["* item1", "* item2"] (by decide) (by decide)

end SlimeE
